import Mathlib

/-!
Verification of the opencli crate (FantasyTeddy/opencli).

The crate consists of a serde-based data model (`src/lib.rs`) — a tree of
record types rooted at `OpenCliDocument`, each deriving `Serialize` and
`Deserialize` with `#[serde(rename_all = "camelCase")]`, required fields
plain, optional fields as `Option<T>` with
`#[serde(skip_serializing_if = "Option::is_none")]`, and sequence fields as
`Vec<T>` with `#[serde(default, skip_serializing_if = "Vec::is_empty")]` —
plus a loader (`from_path` / `from_slice` / `from_str`) with a
YAML-then-JSON fallback, and an error enum (`src/error.rs`).

Embedding choices:
* `JValue` is the structured-value tree shared by both serialization
  formats (the serde data model restricted to what the crate's types use;
  numbers are modelled as integers — no claim involves floating point).
* The derived `Deserialize` impls are embedded as `decode*` functions from
  `JValue`, following serde's documented semantics for the attribute set in
  the source: required fields error when absent, `Option` fields read
  absent-or-null as `none`, `#[serde(default)]` `Vec` fields read an absent
  field as `[]` (a present non-sequence value, including null, is a type
  error), unknown keys are ignored, a non-map value is a type error.
  A duplicated known key is rejected (`duplicate field`), exactly as the
  derived deserializers do, while duplicated unknown keys are ignored, as
  serde ignores every unknown-key occurrence. The embedding accepts exactly
  the objects the derived impls accept and decodes them to the same values;
  the one divergence kept out of scope is evaluation order (the embedding
  examines fields in declaration order, serde walks the input entry order),
  which affects only which diagnostic string an erroneous input produces.
* The derived `Serialize` impls are embedded as `encode*` functions to
  `JValue`, emitting fields in declaration order and skipping `none`
  options and empty sequences, as the attributes prescribe.
* The external text parsers (`serde_yaml::from_str`, `serde_json::from_str`)
  are grammar implementations outside this repository; the loader is
  therefore parametrized over the two text-level decoding functions, and
  `str::from_utf8` is embedded concretely as a UTF-8 validator.
-/

/-- Structured value tree: the serde data model as used by the crate
(`serde_json::Value` shape; numbers restricted to integers). -/
inductive JValue where
  | null
  | bool (b : Bool)
  | num (n : Int)
  | str (s : String)
  | arr (items : List JValue)
  | obj (entries : List (String × JValue))

/-- Metadata entry (`OpenCliMetadata`): required `name`, optional open
`value` of type `serde_json::Value`. -/
structure OpenCliMetadata where
  name : String
  value : Option JValue

/-- Arity (`OpenCliArity`): optional `minimum` and `maximum`, both `i32`
(modelled as `Int`; the decoder enforces the `i32` range). -/
structure OpenCliArity where
  minimum : Option Int
  maximum : Option Int

/-- Exit code (`OpenCliExitCode`): required `code : i32`, optional
`description`. -/
structure OpenCliExitCode where
  code : Int
  description : Option String

/-- Contact (`OpenCliContact`): all fields optional. -/
structure OpenCliContact where
  name : Option String
  url : Option String
  email : Option String

/-- License (`OpenCliLicense`): all fields optional. -/
structure OpenCliLicense where
  name : Option String
  identifier : Option String

/-- Conventions (`OpenCliConventions`): all fields optional. -/
structure OpenCliConventions where
  group_options : Option Bool
  option_argument_separator : Option String

/-- Info (`OpenCliInfo`): required `title` and `version`, the rest
optional. -/
structure OpenCliInfo where
  title : String
  summary : Option String
  description : Option String
  contact : Option OpenCliContact
  license : Option OpenCliLicense
  version : String

/-- Argument (`OpenCliArgument`): required `name`; `accepted_values` and
`metadata` are defaulted sequences; the rest optional. -/
structure OpenCliArgument where
  name : String
  required : Option Bool
  arity : Option OpenCliArity
  accepted_values : List String
  group : Option String
  description : Option String
  hidden : Option Bool
  metadata : List OpenCliMetadata

/-- Option (`OpenCliOption`): required `name`; `aliases`, `arguments` and
`metadata` are defaulted sequences; the rest optional. -/
structure OpenCliOption where
  name : String
  required : Option Bool
  aliases : List String
  arguments : List OpenCliArgument
  group : Option String
  description : Option String
  recursive : Option Bool
  hidden : Option Bool
  metadata : List OpenCliMetadata

/-- Command (`OpenCliCommand`): the one recursive type of the model — a
command owns its sub-commands. Declared as a single-constructor inductive
because Lean structures cannot be recursive; the constructor fields are in
the source declaration order. -/
inductive OpenCliCommand where
  | mk (name : String) (aliases : List String) (options : List OpenCliOption)
      (arguments : List OpenCliArgument) (commands : List OpenCliCommand)
      (exit_codes : List OpenCliExitCode) (description : Option String)
      (hidden : Option Bool) (examples : List String)
      (interactive : Option Bool) (metadata : List OpenCliMetadata)

/-- Accessor for the sub-command list of a command. -/
def OpenCliCommand.commands : OpenCliCommand → List OpenCliCommand
  | .mk _ _ _ _ cs _ _ _ _ _ _ => cs

/-- Accessor for the option list of a command. -/
def OpenCliCommand.options : OpenCliCommand → List OpenCliOption
  | .mk _ _ os _ _ _ _ _ _ _ _ => os

/-- Document (`OpenCliDocument`): the root type. -/
structure OpenCliDocument where
  opencli : String
  info : OpenCliInfo
  conventions : Option OpenCliConventions
  arguments : List OpenCliArgument
  options : List OpenCliOption
  commands : List OpenCliCommand
  exit_codes : List OpenCliExitCode
  examples : List String
  interactive : Option Bool
  metadata : List OpenCliMetadata

/-- Error taxonomy of `src/error.rs`: `Parse` carries the JSON decoder
diagnostic, `Io` a filesystem failure, `Other` a fixed static message. -/
inductive Error where
  | Parse (msg : String)
  | Io (msg : String)
  | Other (msg : String)

/-! ## Decoding (derived `Deserialize` semantics) -/

/-- Looks a key up in the entry list of a map value. Every decoder first
rejects objects with a duplicated known key (see `hasDupKey`), so on the
objects that proceed past that check a known-key lookup is unambiguous. -/
def findField : List (String × JValue) → String → Option JValue
  | [], _ => none
  | (k, v) :: rest, key => if k = key then some v else findField rest key

/-- Known wire keys of `OpenCliMetadata`. -/
def metadataKeys : List String := ["name", "value"]

/-- Known wire keys of `OpenCliArity`. -/
def arityKeys : List String := ["minimum", "maximum"]

/-- Known wire keys of `OpenCliExitCode`. -/
def exitCodeKeys : List String := ["code", "description"]

/-- Known wire keys of `OpenCliContact`. -/
def contactKeys : List String := ["name", "url", "email"]

/-- Known wire keys of `OpenCliLicense`. -/
def licenseKeys : List String := ["name", "identifier"]

/-- Known wire keys of `OpenCliConventions`. -/
def conventionsKeys : List String := ["groupOptions", "optionArgumentSeparator"]

/-- Known wire keys of `OpenCliInfo`. -/
def infoKeys : List String :=
  ["title", "summary", "description", "contact", "license", "version"]

/-- Known wire keys of `OpenCliArgument`. -/
def argumentKeys : List String :=
  ["name", "required", "arity", "acceptedValues", "group", "description",
   "hidden", "metadata"]

/-- Known wire keys of `OpenCliOption`. -/
def optionKeys : List String :=
  ["name", "required", "aliases", "arguments", "group", "description",
   "recursive", "hidden", "metadata"]

/-- Known wire keys of `OpenCliCommand`. -/
def commandKeys : List String :=
  ["name", "aliases", "options", "arguments", "commands", "exitCodes",
   "description", "hidden", "examples", "interactive", "metadata"]

/-- Known wire keys of `OpenCliDocument`. -/
def docKeys : List String :=
  ["opencli", "info", "conventions", "arguments", "options", "commands",
   "exitCodes", "examples", "interactive", "metadata"]

/-- Tests whether some known field key occurs more than once in a map
entry list: serde derived deserializers reject such an object with a
duplicate-field error (an unknown key may repeat freely — every occurrence
is ignored). -/
def hasDupKey (keys : List String) (e : List (String × JValue)) : Bool :=
  keys.any (fun k => 1 < (e.map Prod.fst).count k)

/-- Deserializes a `String` field value. -/
def getString : JValue → Except String String
  | .str s => .ok s
  | _ => .error "invalid type: expected a string"

/-- Deserializes a `bool` field value. -/
def getBool : JValue → Except String Bool
  | .bool b => .ok b
  | _ => .error "invalid type: expected a boolean"

/-- Deserializes an `i32` field value; serde rejects numbers outside the
`i32` range. -/
def getI32 : JValue → Except String Int
  | .num n =>
    if -2147483648 ≤ n ∧ n ≤ 2147483647 then .ok n
    else .error "invalid value: integer out of range of i32"
  | _ => .error "invalid type: expected an integer"

/-- Deserializes an `Option<T>` field from its looked-up value: an absent
field and a present-null field both give `none`; any other value is
deserialized by `dec`. -/
def optDecode (o : Option JValue) (dec : JValue → Except String α) :
    Except String (Option α) :=
  match o with
  | none => .ok none
  | some .null => .ok none
  | some v => (dec v).map some

/-- Runs an element deserializer across a sequence. -/
def mapMExcept (dec : JValue → Except String α) : List JValue → Except String (List α)
  | [] => .ok []
  | v :: rest => do
    let a ← dec v
    let as ← mapMExcept dec rest
    .ok (a :: as)

/-- Deserializes a `#[serde(default)] Vec<T>` field from its looked-up
value: an absent field gives `[]`; a present field must be a sequence
(null included, a present non-sequence is a type error). -/
def seqDecode (o : Option JValue) (dec : JValue → Except String α) :
    Except String (List α) :=
  match o with
  | none => .ok []
  | some (.arr items) => mapMExcept dec items
  | some _ => .error "invalid type: expected a sequence"

/-- Deserializes a required field of any type: absent is an error. -/
def reqDecode (o : Option JValue) (dec : JValue → Except String α) :
    Except String α :=
  match o with
  | none => .error "missing field"
  | some v => dec v

/-- Derived `Deserialize` for `OpenCliMetadata`: the `value` field stores
the raw structured value (`Option<serde_json::Value>`). -/
def decodeMetadata : JValue → Except String OpenCliMetadata
  | .obj e =>
    if hasDupKey metadataKeys e then .error "duplicate field"
    else do
      let name ← reqDecode (findField e "name") getString
      let value ← optDecode (findField e "value") Except.ok
      .ok ⟨name, value⟩
  | _ => .error "invalid type: expected a map"

/-- Derived `Deserialize` for `OpenCliArity`. -/
def decodeArity : JValue → Except String OpenCliArity
  | .obj e =>
    if hasDupKey arityKeys e then .error "duplicate field"
    else do
      let mn ← optDecode (findField e "minimum") getI32
      let mx ← optDecode (findField e "maximum") getI32
      .ok ⟨mn, mx⟩
  | _ => .error "invalid type: expected a map"

/-- Derived `Deserialize` for `OpenCliExitCode`. -/
def decodeExitCode : JValue → Except String OpenCliExitCode
  | .obj e =>
    if hasDupKey exitCodeKeys e then .error "duplicate field"
    else do
      let code ← reqDecode (findField e "code") getI32
      let description ← optDecode (findField e "description") getString
      .ok ⟨code, description⟩
  | _ => .error "invalid type: expected a map"

/-- Derived `Deserialize` for `OpenCliContact`. -/
def decodeContact : JValue → Except String OpenCliContact
  | .obj e =>
    if hasDupKey contactKeys e then .error "duplicate field"
    else do
      let name ← optDecode (findField e "name") getString
      let url ← optDecode (findField e "url") getString
      let email ← optDecode (findField e "email") getString
      .ok ⟨name, url, email⟩
  | _ => .error "invalid type: expected a map"

/-- Derived `Deserialize` for `OpenCliLicense`. -/
def decodeLicense : JValue → Except String OpenCliLicense
  | .obj e =>
    if hasDupKey licenseKeys e then .error "duplicate field"
    else do
      let name ← optDecode (findField e "name") getString
      let identifier ← optDecode (findField e "identifier") getString
      .ok ⟨name, identifier⟩
  | _ => .error "invalid type: expected a map"

/-- Derived `Deserialize` for `OpenCliConventions` (camelCase wire
names). -/
def decodeConventions : JValue → Except String OpenCliConventions
  | .obj e =>
    if hasDupKey conventionsKeys e then .error "duplicate field"
    else do
      let go ← optDecode (findField e "groupOptions") getBool
      let sep ← optDecode (findField e "optionArgumentSeparator") getString
      .ok ⟨go, sep⟩
  | _ => .error "invalid type: expected a map"

/-- Derived `Deserialize` for `OpenCliInfo`. -/
def decodeInfo : JValue → Except String OpenCliInfo
  | .obj e =>
    if hasDupKey infoKeys e then .error "duplicate field"
    else do
      let title ← reqDecode (findField e "title") getString
      let summary ← optDecode (findField e "summary") getString
      let description ← optDecode (findField e "description") getString
      let contact ← optDecode (findField e "contact") decodeContact
      let license ← optDecode (findField e "license") decodeLicense
      let version ← reqDecode (findField e "version") getString
      .ok ⟨title, summary, description, contact, license, version⟩
  | _ => .error "invalid type: expected a map"

/-- Derived `Deserialize` for `OpenCliArgument`. -/
def decodeArgument : JValue → Except String OpenCliArgument
  | .obj e =>
    if hasDupKey argumentKeys e then .error "duplicate field"
    else do
      let name ← reqDecode (findField e "name") getString
      let required ← optDecode (findField e "required") getBool
      let arity ← optDecode (findField e "arity") decodeArity
      let accepted ← seqDecode (findField e "acceptedValues") getString
      let group ← optDecode (findField e "group") getString
      let description ← optDecode (findField e "description") getString
      let hidden ← optDecode (findField e "hidden") getBool
      let metadata ← seqDecode (findField e "metadata") decodeMetadata
      .ok ⟨name, required, arity, accepted, group, description, hidden, metadata⟩
  | _ => .error "invalid type: expected a map"

/-- Derived `Deserialize` for `OpenCliOption`. -/
def decodeOption : JValue → Except String OpenCliOption
  | .obj e =>
    if hasDupKey optionKeys e then .error "duplicate field"
    else do
      let name ← reqDecode (findField e "name") getString
      let required ← optDecode (findField e "required") getBool
      let aliases ← seqDecode (findField e "aliases") getString
      let arguments ← seqDecode (findField e "arguments") decodeArgument
      let group ← optDecode (findField e "group") getString
      let description ← optDecode (findField e "description") getString
      let recursive ← optDecode (findField e "recursive") getBool
      let hidden ← optDecode (findField e "hidden") getBool
      let metadata ← seqDecode (findField e "metadata") decodeMetadata
      .ok ⟨name, required, aliases, arguments, group, description, recursive, hidden, metadata⟩
  | _ => .error "invalid type: expected a map"

/-- Termination support: a value found in a map entry list is structurally
smaller than the map value. -/
theorem sizeOf_findField {e : List (String × JValue)} {k : String} {v : JValue}
    (h : findField e k = some v) : sizeOf v < sizeOf (JValue.obj e) := by
  induction e with
  | nil => simp [findField] at h
  | cons p rest ih =>
    obtain ⟨k1, v1⟩ := p
    simp only [findField] at h
    split at h
    · cases h; simp; omega
    · have := ih h
      simp at this ⊢
      omega

/-- Termination support: an element of a sequence value is structurally
smaller than the sequence value. -/
theorem sizeOf_mem_arr {x : JValue} {items : List JValue} (h : x ∈ items) :
    sizeOf x < sizeOf (JValue.arr items) := by
  have := List.sizeOf_lt_of_mem h
  simp
  omega

/-- Dependent variant of `mapMExcept` supplying list membership to the
element deserializer (used only to justify termination of the recursive
command decoder; its behavior is that of `mapMExcept`). -/
def mapMemExcept (l : List JValue) (dec : (x : JValue) → x ∈ l → Except String α) :
    Except String (List α) :=
  match l with
  | [] => .ok []
  | v :: rest => do
    let a ← dec v (by simp)
    let as ← mapMemExcept rest (fun x hx => dec x (by simp [hx]))
    .ok (a :: as)

/-- Derived `Deserialize` for `OpenCliCommand` — the recursive case: the
`commands` field is a defaulted sequence of commands. -/
def decodeCommand : JValue → Except String OpenCliCommand
  | .obj e =>
    if hasDupKey commandKeys e then .error "duplicate field"
    else do
      let name ← reqDecode (findField e "name") getString
      let aliases ← seqDecode (findField e "aliases") getString
      let options ← seqDecode (findField e "options") decodeOption
      let arguments ← seqDecode (findField e "arguments") decodeArgument
      let commands ← match h : findField e "commands" with
        | none => .ok []
        | some (.arr items) => mapMemExcept items (fun x _ => decodeCommand x)
        | some _ => .error "invalid type: expected a sequence"
      let exitCodes ← seqDecode (findField e "exitCodes") decodeExitCode
      let description ← optDecode (findField e "description") getString
      let hidden ← optDecode (findField e "hidden") getBool
      let examples ← seqDecode (findField e "examples") getString
      let interactive ← optDecode (findField e "interactive") getBool
      let metadata ← seqDecode (findField e "metadata") decodeMetadata
      .ok (.mk name aliases options arguments commands exitCodes description hidden
        examples interactive metadata)
  | _ => .error "invalid type: expected a map"
termination_by v => sizeOf v
decreasing_by
  have h1 := sizeOf_findField h
  have h2 := sizeOf_mem_arr (by assumption : x ∈ items)
  omega

/-- Derived `Deserialize` for `OpenCliDocument` (root object). -/
def decodeDocument : JValue → Except String OpenCliDocument
  | .obj e =>
    if hasDupKey docKeys e then .error "duplicate field"
    else do
      let opencli ← reqDecode (findField e "opencli") getString
      let info ← reqDecode (findField e "info") decodeInfo
      let conventions ← optDecode (findField e "conventions") decodeConventions
      let arguments ← seqDecode (findField e "arguments") decodeArgument
      let options ← seqDecode (findField e "options") decodeOption
      let commands ← seqDecode (findField e "commands") decodeCommand
      let exitCodes ← seqDecode (findField e "exitCodes") decodeExitCode
      let examples ← seqDecode (findField e "examples") getString
      let interactive ← optDecode (findField e "interactive") getBool
      let metadata ← seqDecode (findField e "metadata") decodeMetadata
      .ok ⟨opencli, info, conventions, arguments, options, commands, exitCodes,
        examples, interactive, metadata⟩
  | _ => .error "invalid type: expected a map"

/-! ## Encoding (derived `Serialize` semantics) -/

/-- Entry list of a required field: always emitted. -/
def reqE (k : String) (v : JValue) : List (String × JValue) := [(k, v)]

/-- Entry list of an `Option` field with
`#[serde(skip_serializing_if = "Option::is_none")]`: emitted only when
present. -/
def optE (k : String) : Option JValue → List (String × JValue)
  | none => []
  | some v => [(k, v)]

/-- Entry list of a `Vec` field with
`#[serde(skip_serializing_if = "Vec::is_empty")]`: emitted only when
non-empty. -/
def seqE (k : String) (items : List JValue) : List (String × JValue) :=
  match items with
  | [] => []
  | _ :: _ => [(k, .arr items)]

/-- Derived `Serialize` for `OpenCliMetadata`. -/
def encodeMetadata (m : OpenCliMetadata) : JValue :=
  .obj (reqE "name" (.str m.name) ++ optE "value" m.value)

/-- Derived `Serialize` for `OpenCliArity`. -/
def encodeArity (a : OpenCliArity) : JValue :=
  .obj (optE "minimum" (a.minimum.map .num) ++ optE "maximum" (a.maximum.map .num))

/-- Derived `Serialize` for `OpenCliExitCode`. -/
def encodeExitCode (x : OpenCliExitCode) : JValue :=
  .obj (reqE "code" (.num x.code) ++ optE "description" (x.description.map .str))

/-- Derived `Serialize` for `OpenCliContact`. -/
def encodeContact (c : OpenCliContact) : JValue :=
  .obj (optE "name" (c.name.map .str) ++ optE "url" (c.url.map .str) ++
    optE "email" (c.email.map .str))

/-- Derived `Serialize` for `OpenCliLicense`. -/
def encodeLicense (l : OpenCliLicense) : JValue :=
  .obj (optE "name" (l.name.map .str) ++ optE "identifier" (l.identifier.map .str))

/-- Derived `Serialize` for `OpenCliConventions`. -/
def encodeConventions (c : OpenCliConventions) : JValue :=
  .obj (optE "groupOptions" (c.group_options.map .bool) ++
    optE "optionArgumentSeparator" (c.option_argument_separator.map .str))

/-- Derived `Serialize` for `OpenCliInfo`. -/
def encodeInfo (i : OpenCliInfo) : JValue :=
  .obj (reqE "title" (.str i.title) ++ optE "summary" (i.summary.map .str) ++
    optE "description" (i.description.map .str) ++
    optE "contact" (i.contact.map encodeContact) ++
    optE "license" (i.license.map encodeLicense) ++
    reqE "version" (.str i.version))

/-- Derived `Serialize` for `OpenCliArgument`. -/
def encodeArgument (a : OpenCliArgument) : JValue :=
  .obj (reqE "name" (.str a.name) ++ optE "required" (a.required.map .bool) ++
    optE "arity" (a.arity.map encodeArity) ++
    seqE "acceptedValues" (a.accepted_values.map .str) ++
    optE "group" (a.group.map .str) ++
    optE "description" (a.description.map .str) ++
    optE "hidden" (a.hidden.map .bool) ++
    seqE "metadata" (a.metadata.map encodeMetadata))

/-- Derived `Serialize` for `OpenCliOption`. -/
def encodeOption (o : OpenCliOption) : JValue :=
  .obj (reqE "name" (.str o.name) ++ optE "required" (o.required.map .bool) ++
    seqE "aliases" (o.aliases.map .str) ++
    seqE "arguments" (o.arguments.map encodeArgument) ++
    optE "group" (o.group.map .str) ++
    optE "description" (o.description.map .str) ++
    optE "recursive" (o.recursive.map .bool) ++
    optE "hidden" (o.hidden.map .bool) ++
    seqE "metadata" (o.metadata.map encodeMetadata))

/-- Termination support: a member of a command list is structurally smaller
than the list. -/
theorem sizeOf_mem_commands {c : OpenCliCommand} {l : List OpenCliCommand}
    (h : c ∈ l) : sizeOf c < sizeOf l := List.sizeOf_lt_of_mem h

/-- Dependent map supplying list membership to the element function (used
only to justify termination of the recursive command encoder). -/
def mapMem (l : List OpenCliCommand) (f : (c : OpenCliCommand) → c ∈ l → JValue) :
    List JValue :=
  match l with
  | [] => []
  | c :: rest => f c (by simp) :: mapMem rest (fun x hx => f x (by simp [hx]))

/-- Derived `Serialize` for `OpenCliCommand` — the recursive case. -/
def encodeCommand : OpenCliCommand → JValue
  | .mk name aliases options arguments commands exitCodes description hidden
      examples interactive metadata =>
    .obj (reqE "name" (.str name) ++ seqE "aliases" (aliases.map .str) ++
      seqE "options" (options.map encodeOption) ++
      seqE "arguments" (arguments.map encodeArgument) ++
      seqE "commands" (mapMem commands (fun c _ => encodeCommand c)) ++
      seqE "exitCodes" (exitCodes.map encodeExitCode) ++
      optE "description" (description.map .str) ++
      optE "hidden" (hidden.map .bool) ++
      seqE "examples" (examples.map .str) ++
      optE "interactive" (interactive.map .bool) ++
      seqE "metadata" (metadata.map encodeMetadata))
termination_by c => sizeOf c
decreasing_by
  rename_i hmem
  have h1 := sizeOf_mem_commands hmem
  simp
  omega

/-- Derived `Serialize` for `OpenCliDocument`. -/
def encodeDocument (d : OpenCliDocument) : JValue :=
  .obj (reqE "opencli" (.str d.opencli) ++ reqE "info" (encodeInfo d.info) ++
    optE "conventions" (d.conventions.map encodeConventions) ++
    seqE "arguments" (d.arguments.map encodeArgument) ++
    seqE "options" (d.options.map encodeOption) ++
    seqE "commands" (d.commands.map encodeCommand) ++
    seqE "exitCodes" (d.exit_codes.map encodeExitCode) ++
    seqE "examples" (d.examples.map .str) ++
    optE "interactive" (d.interactive.map .bool) ++
    seqE "metadata" (d.metadata.map encodeMetadata))

/-! ## Loader (`OpenCliDocument::from_str` / `from_slice`)

The two text-level decoders `serde_yaml::from_str` (format A) and
`serde_json::from_str` (format B) are external library code, so the loader
is parametrized over them; the crate's own contribution — attempt order,
silent discard of the first failure, surfacing the second failure as
`Error::Parse` — is embedded concretely. -/

/-- Embeds `OpenCliDocument::from_str`: try format A (YAML); on any
failure, silently discard it and try format B (JSON); surface only format
B failures, wrapped as `Error::Parse` by the `#[from]` conversion. -/
def fromStr (yamlFromStr jsonFromStr : String → Except String OpenCliDocument)
    (content : String) : Except Error OpenCliDocument :=
  match yamlFromStr content with
  | .ok data => .ok data
  | .error _ =>
    match jsonFromStr content with
    | .ok jsonData => .ok jsonData
    | .error e => .error (.Parse e)

/-- Embeds `str::from_utf8` (RFC 3629 validation exactly as Rust std:
rejecting continuation-byte errors, overlong forms, surrogates and code
points above U+10FFFF), producing the scalar-value sequence. -/
def utf8Decode : List Nat → Option (List Nat)
  | [] => some []
  | b0 :: rest =>
    if b0 ≤ 0x7F then (utf8Decode rest).map (b0 :: ·)
    else if 0xC2 ≤ b0 ∧ b0 ≤ 0xDF then
      match rest with
      | b1 :: rest1 =>
        if 0x80 ≤ b1 ∧ b1 ≤ 0xBF then
          (utf8Decode rest1).map (((b0 - 0xC0) * 64 + (b1 - 0x80)) :: ·)
        else none
      | [] => none
    else if 0xE0 ≤ b0 ∧ b0 ≤ 0xEF then
      match rest with
      | b1 :: b2 :: rest2 =>
        if (if b0 = 0xE0 then 0xA0 else 0x80) ≤ b1 ∧
            b1 ≤ (if b0 = 0xED then 0x9F else 0xBF) ∧
            0x80 ≤ b2 ∧ b2 ≤ 0xBF then
          (utf8Decode rest2).map
            (((b0 - 0xE0) * 4096 + (b1 - 0x80) * 64 + (b2 - 0x80)) :: ·)
        else none
      | _ => none
    else if 0xF0 ≤ b0 ∧ b0 ≤ 0xF4 then
      match rest with
      | b1 :: b2 :: b3 :: rest3 =>
        if (if b0 = 0xF0 then 0x90 else 0x80) ≤ b1 ∧
            b1 ≤ (if b0 = 0xF4 then 0x8F else 0xBF) ∧
            0x80 ≤ b2 ∧ b2 ≤ 0xBF ∧ 0x80 ≤ b3 ∧ b3 ≤ 0xBF then
          (utf8Decode rest3).map
            (((b0 - 0xF0) * 262144 + (b1 - 0x80) * 4096 + (b2 - 0x80) * 64 +
              (b3 - 0x80)) :: ·)
        else none
      | _ => none
    else none

/-- Builds the Lean string carried by a decoded scalar-value sequence. -/
def strOfCodepoints (cps : List Nat) : String := ⟨cps.map Char.ofNat⟩

/-- Embeds `OpenCliDocument::from_slice`: validate UTF-8 first, failing
with `Error::Other("utf8")` without any parse attempt, then delegate to
`from_str`. -/
def fromSlice (yamlFromStr jsonFromStr : String → Except String OpenCliDocument)
    (content : List Nat) : Except Error OpenCliDocument :=
  match utf8Decode content with
  | none => .error (.Other "utf8")
  | some cps => fromStr yamlFromStr jsonFromStr (strOfCodepoints cps)

/-! ## In-range well-formedness (for the round-trip statement) -/

/-- The value fits the Rust `i32` type of the corresponding field. -/
def IsI32 (n : Int) : Prop := -2147483648 ≤ n ∧ n ≤ 2147483647

/-- Metadata whose `value` is not present-null (a present-null value is the
one loaded state a round trip cannot reproduce, see claim C10). -/
def MetaOk (m : OpenCliMetadata) : Prop := m.value ≠ some JValue.null

/-- Arity bounds fit `i32`. -/
def ArityOk (a : OpenCliArity) : Prop :=
  (∀ n ∈ a.minimum, IsI32 n) ∧ (∀ n ∈ a.maximum, IsI32 n)

/-- Exit code fits `i32`. -/
def ExitCodeOk (x : OpenCliExitCode) : Prop := IsI32 x.code

/-- Argument with in-range arity and round-trippable metadata. -/
def ArgumentOk (a : OpenCliArgument) : Prop :=
  (∀ x ∈ a.arity, ArityOk x) ∧ (∀ m ∈ a.metadata, MetaOk m)

/-- Option whose arguments and metadata are in range. -/
def OptionOk (o : OpenCliOption) : Prop :=
  (∀ a ∈ o.arguments, ArgumentOk a) ∧ (∀ m ∈ o.metadata, MetaOk m)

/-- Command tree whose numeric fields are in `i32` range and whose metadata
values are round-trippable, recursively. -/
inductive CmdOk : OpenCliCommand → Prop where
  | intro (name : String) (aliases : List String) (options : List OpenCliOption)
      (arguments : List OpenCliArgument) (commands : List OpenCliCommand)
      (exitCodes : List OpenCliExitCode) (description : Option String)
      (hidden : Option Bool) (examples : List String)
      (interactive : Option Bool) (metadata : List OpenCliMetadata) :
      (∀ o ∈ options, OptionOk o) → (∀ a ∈ arguments, ArgumentOk a) →
      (∀ c ∈ commands, CmdOk c) → (∀ x ∈ exitCodes, ExitCodeOk x) →
      (∀ m ∈ metadata, MetaOk m) →
      CmdOk (.mk name aliases options arguments commands exitCodes description
        hidden examples interactive metadata)

/-- Document built purely from in-range field values (and round-trippable
metadata values). -/
def DocOk (d : OpenCliDocument) : Prop :=
  (∀ a ∈ d.arguments, ArgumentOk a) ∧ (∀ o ∈ d.options, OptionOk o) ∧
  (∀ c ∈ d.commands, CmdOk c) ∧ (∀ x ∈ d.exit_codes, ExitCodeOk x) ∧
  (∀ m ∈ d.metadata, MetaOk m)

/-- Shape of the looked-up value of an emitted sequence field: absent when
empty, a sequence value otherwise. -/
def seqLook (items : List JValue) : Option JValue :=
  match items with
  | [] => none
  | _ :: _ => some (.arr items)

/-! ## Supporting lemmas -/

theorem ok_bind {α β : Type} (a : α) (f : α → Except String β) :
    (Except.ok a >>= f) = f a := rfl

theorem error_bind {α β : Type} (e : String) (f : α → Except String β) :
    ((Except.error e : Except String α) >>= f) = .error e := rfl

theorem findField_append (xs ys : List (String × JValue)) (k : String) :
    findField (xs ++ ys) k = (findField xs k).or (findField ys k) := by
  induction xs with
  | nil => simp [findField]
  | cons p rest ih =>
    obtain ⟨k1, v1⟩ := p
    by_cases h : k1 = k <;> simp [findField, h, ih]

theorem findField_reqE_self (k : String) (v : JValue) :
    findField (reqE k v) k = some v := by simp [reqE, findField]

theorem findField_reqE_ne {k1 k : String} (h : k1 ≠ k) (v : JValue) :
    findField (reqE k1 v) k = none := by simp [reqE, findField, h]

theorem findField_optE_self (k : String) (o : Option JValue) :
    findField (optE k o) k = o := by cases o <;> simp [optE, findField]

theorem findField_optE_ne {k1 k : String} (h : k1 ≠ k) (o : Option JValue) :
    findField (optE k1 o) k = none := by cases o <;> simp [optE, findField, h]

theorem findField_seqE_self (k : String) (items : List JValue) :
    findField (seqE k items) k = seqLook items := by
  cases items <;> simp [seqE, seqLook, findField]

theorem findField_seqE_ne {k1 k : String} (h : k1 ≠ k) (items : List JValue) :
    findField (seqE k1 items) k = none := by
  cases items <;> simp [seqE, findField, h]

theorem roundOptString (o : Option String) :
    optDecode (o.map .str) getString = .ok o := by cases o <;> rfl

theorem roundOptBool (o : Option Bool) :
    optDecode (o.map .bool) getBool = .ok o := by cases o <;> rfl

theorem map_ok {α β : Type} (g : α → β) (a : α) :
    (Except.ok a : Except String α).map g = .ok (g a) := rfl

theorem map_error {α β : Type} (g : α → β) (e : String) :
    (Except.error e : Except String α).map g = .error e := rfl

theorem roundOptI32 {o : Option Int} (h : ∀ n ∈ o, IsI32 n) :
    optDecode (o.map .num) getI32 = .ok o := by
  cases o with
  | none => rfl
  | some n =>
    obtain ⟨h1, h2⟩ := h n (by simp)
    simp [optDecode, getI32, map_ok, h1, h2]

theorem roundOptValue {o : Option JValue} (h : o ≠ some JValue.null) :
    optDecode o Except.ok = .ok o := by
  cases o with
  | none => rfl
  | some v => cases v <;> simp_all [optDecode, map_ok]

theorem roundOptStruct {α : Type} {o : Option α} (enc : α → JValue)
    (dec : JValue → Except String α) (hnn : ∀ x, enc x ≠ JValue.null)
    (hrt : ∀ x ∈ o, dec (enc x) = .ok x) :
    optDecode (o.map enc) dec = .ok o := by
  cases o with
  | none => rfl
  | some x =>
    have h1 := hrt x (by simp)
    have h2 := hnn x
    cases he : enc x <;> simp_all [optDecode, map_ok]

theorem mapMExcept_map_round {α : Type} {l : List α} (enc : α → JValue)
    (dec : JValue → Except String α) (hrt : ∀ x ∈ l, dec (enc x) = .ok x) :
    mapMExcept dec (l.map enc) = .ok l := by
  induction l with
  | nil => rfl
  | cons x rest ih =>
    have h1 := hrt x (by simp)
    have h2 := ih (fun y hy => hrt y (by simp [hy]))
    simp [mapMExcept, h1, h2, ok_bind]

theorem seqRound {α : Type} {l : List α} (enc : α → JValue)
    (dec : JValue → Except String α) (hrt : ∀ x ∈ l, dec (enc x) = .ok x) :
    seqDecode (seqLook (l.map enc)) dec = .ok l := by
  cases l with
  | nil => rfl
  | cons x rest =>
    simp only [seqLook, seqDecode, List.map]
    exact mapMExcept_map_round enc dec hrt

theorem mapMem_eq_map (f : OpenCliCommand → JValue)
    (l : List OpenCliCommand) :
    mapMem l (fun c _ => f c) = l.map f := by
  induction l with
  | nil => rfl
  | cons c rest ih => simp [mapMem, ih]

theorem mapMemExcept_map_round {α : Type} {l : List α} (enc : α → JValue)
    (dec : JValue → Except String α) (hrt : ∀ x ∈ l, dec (enc x) = .ok x) :
    mapMemExcept (l.map enc) (fun x _ => dec x) = .ok l := by
  induction l with
  | nil => rfl
  | cons x rest ih =>
    have h1 := hrt x (by simp)
    have h2 := ih (fun y hy => hrt y (by simp [hy]))
    simp [mapMemExcept, h1, h2, ok_bind]

theorem some_or {α : Type} (a : α) (o : Option α) : (some a).or o = some a := rfl

theorem none_or {α : Type} (o : Option α) : (Option.none).or o = o := rfl

theorem sub_reqE (k : String) (v : JValue) :
    ((reqE k v).map Prod.fst).Sublist [k] := by
  simp [reqE]

theorem sub_optE (k : String) (o : Option JValue) :
    ((optE k o).map Prod.fst).Sublist [k] := by
  cases o with
  | none => exact List.nil_sublist _
  | some v => exact List.Sublist.refl _

theorem sub_seqE (k : String) (items : List JValue) :
    ((seqE k items).map Prod.fst).Sublist [k] := by
  cases items with
  | nil => exact List.nil_sublist _
  | cons x rest => exact List.Sublist.refl _

theorem hasDupKey_false_of_nodup {e : List (String × JValue)} (keys : List String)
    (h : (e.map Prod.fst).Nodup) : hasDupKey keys e = false := by
  have hc := List.nodup_iff_count_le_one.mp h
  simp only [hasDupKey, List.any_eq_false]
  intro k hk
  simp only [decide_eq_true_eq, not_lt]
  exact hc k

theorem hasDupKey_false_of_sublist {e : List (String × JValue)}
    (keys bound : List String) (hs : (e.map Prod.fst).Sublist bound)
    (hnd : bound.Nodup) : hasDupKey keys e = false :=
  hasDupKey_false_of_nodup keys (List.Nodup.sublist hs hnd)

theorem dupFree_metadataE (v : JValue) (o : Option JValue) :
    hasDupKey metadataKeys (reqE "name" v ++ optE "value" o) = false :=
  hasDupKey_false_of_sublist _ (["name"] ++ ["value"])
    (by simp only [List.map_append]; exact (sub_reqE _ _).append (sub_optE _ _))
    (by decide)

theorem dupFree_arityE (o1 o2 : Option JValue) :
    hasDupKey arityKeys (optE "minimum" o1 ++ optE "maximum" o2) = false :=
  hasDupKey_false_of_sublist _ (["minimum"] ++ ["maximum"])
    (by simp only [List.map_append]; exact (sub_optE _ _).append (sub_optE _ _))
    (by decide)

theorem dupFree_exitCodeE (v : JValue) (o : Option JValue) :
    hasDupKey exitCodeKeys (reqE "code" v ++ optE "description" o) = false :=
  hasDupKey_false_of_sublist _ (["code"] ++ ["description"])
    (by simp only [List.map_append]; exact (sub_reqE _ _).append (sub_optE _ _))
    (by decide)

theorem dupFree_contactE (o1 o2 o3 : Option JValue) :
    hasDupKey contactKeys (optE "name" o1 ++ optE "url" o2 ++ optE "email" o3) =
      false :=
  hasDupKey_false_of_sublist _ (["name"] ++ ["url"] ++ ["email"])
    (by simp only [List.map_append]
        exact ((sub_optE _ _).append (sub_optE _ _)).append (sub_optE _ _))
    (by decide)

theorem dupFree_licenseE (o1 o2 : Option JValue) :
    hasDupKey licenseKeys (optE "name" o1 ++ optE "identifier" o2) = false :=
  hasDupKey_false_of_sublist _ (["name"] ++ ["identifier"])
    (by simp only [List.map_append]; exact (sub_optE _ _).append (sub_optE _ _))
    (by decide)

theorem dupFree_conventionsE (o1 o2 : Option JValue) :
    hasDupKey conventionsKeys
      (optE "groupOptions" o1 ++ optE "optionArgumentSeparator" o2) = false :=
  hasDupKey_false_of_sublist _ (["groupOptions"] ++ ["optionArgumentSeparator"])
    (by simp only [List.map_append]; exact (sub_optE _ _).append (sub_optE _ _))
    (by decide)

theorem dupFree_infoE (v1 : JValue) (o1 o2 o3 o4 : Option JValue) (v2 : JValue) :
    hasDupKey infoKeys
      (reqE "title" v1 ++ optE "summary" o1 ++ optE "description" o2 ++
        optE "contact" o3 ++ optE "license" o4 ++ reqE "version" v2) = false :=
  hasDupKey_false_of_sublist _
    (["title"] ++ ["summary"] ++ ["description"] ++ ["contact"] ++ ["license"] ++
      ["version"])
    (by simp only [List.map_append]
        exact (((((sub_reqE _ _).append (sub_optE _ _)).append
          (sub_optE _ _)).append (sub_optE _ _)).append (sub_optE _ _)).append
          (sub_reqE _ _))
    (by decide)

theorem dupFree_argumentE (v : JValue) (o1 o2 : Option JValue) (l1 : List JValue)
    (o3 o4 o5 : Option JValue) (l2 : List JValue) :
    hasDupKey argumentKeys
      (reqE "name" v ++ optE "required" o1 ++ optE "arity" o2 ++
        seqE "acceptedValues" l1 ++ optE "group" o3 ++ optE "description" o4 ++
        optE "hidden" o5 ++ seqE "metadata" l2) = false :=
  hasDupKey_false_of_sublist _
    (["name"] ++ ["required"] ++ ["arity"] ++ ["acceptedValues"] ++ ["group"] ++
      ["description"] ++ ["hidden"] ++ ["metadata"])
    (by simp only [List.map_append]
        exact (((((((sub_reqE _ _).append (sub_optE _ _)).append
          (sub_optE _ _)).append (sub_seqE _ _)).append (sub_optE _ _)).append
          (sub_optE _ _)).append (sub_optE _ _)).append (sub_seqE _ _))
    (by decide)

theorem dupFree_optionE (v : JValue) (o1 : Option JValue) (l1 l2 : List JValue)
    (o2 o3 o4 o5 : Option JValue) (l3 : List JValue) :
    hasDupKey optionKeys
      (reqE "name" v ++ optE "required" o1 ++ seqE "aliases" l1 ++
        seqE "arguments" l2 ++ optE "group" o2 ++ optE "description" o3 ++
        optE "recursive" o4 ++ optE "hidden" o5 ++ seqE "metadata" l3) = false :=
  hasDupKey_false_of_sublist _
    (["name"] ++ ["required"] ++ ["aliases"] ++ ["arguments"] ++ ["group"] ++
      ["description"] ++ ["recursive"] ++ ["hidden"] ++ ["metadata"])
    (by simp only [List.map_append]
        exact ((((((((sub_reqE _ _).append (sub_optE _ _)).append
          (sub_seqE _ _)).append (sub_seqE _ _)).append (sub_optE _ _)).append
          (sub_optE _ _)).append (sub_optE _ _)).append (sub_optE _ _)).append
          (sub_seqE _ _))
    (by decide)

theorem dupFree_commandE (v : JValue) (l1 l2 l3 l4 l5 : List JValue)
    (o1 o2 : Option JValue) (l6 : List JValue) (o3 : Option JValue)
    (l7 : List JValue) :
    hasDupKey commandKeys
      (reqE "name" v ++ seqE "aliases" l1 ++ seqE "options" l2 ++
        seqE "arguments" l3 ++ seqE "commands" l4 ++ seqE "exitCodes" l5 ++
        optE "description" o1 ++ optE "hidden" o2 ++ seqE "examples" l6 ++
        optE "interactive" o3 ++ seqE "metadata" l7) = false :=
  hasDupKey_false_of_sublist _
    (["name"] ++ ["aliases"] ++ ["options"] ++ ["arguments"] ++ ["commands"] ++
      ["exitCodes"] ++ ["description"] ++ ["hidden"] ++ ["examples"] ++
      ["interactive"] ++ ["metadata"])
    (by simp only [List.map_append]
        exact ((((((((((sub_reqE _ _).append (sub_seqE _ _)).append
          (sub_seqE _ _)).append (sub_seqE _ _)).append (sub_seqE _ _)).append
          (sub_seqE _ _)).append (sub_optE _ _)).append (sub_optE _ _)).append
          (sub_seqE _ _)).append (sub_optE _ _)).append (sub_seqE _ _))
    (by decide)

theorem dupFree_docE (v1 v2 : JValue) (o1 : Option JValue)
    (l1 l2 l3 l4 l5 : List JValue) (o2 : Option JValue) (l6 : List JValue) :
    hasDupKey docKeys
      (reqE "opencli" v1 ++ reqE "info" v2 ++ optE "conventions" o1 ++
        seqE "arguments" l1 ++ seqE "options" l2 ++ seqE "commands" l3 ++
        seqE "exitCodes" l4 ++ seqE "examples" l5 ++ optE "interactive" o2 ++
        seqE "metadata" l6) = false :=
  hasDupKey_false_of_sublist _
    (["opencli"] ++ ["info"] ++ ["conventions"] ++ ["arguments"] ++
      ["options"] ++ ["commands"] ++ ["exitCodes"] ++ ["examples"] ++
      ["interactive"] ++ ["metadata"])
    (by simp only [List.map_append]
        exact (((((((((sub_reqE _ _).append (sub_reqE _ _)).append
          (sub_optE _ _)).append (sub_seqE _ _)).append (sub_seqE _ _)).append
          (sub_seqE _ _)).append (sub_seqE _ _)).append (sub_seqE _ _)).append
          (sub_optE _ _)).append (sub_seqE _ _))
    (by decide)

theorem count_fst_filter (p : String × JValue → Bool) (e : List (String × JValue))
    (k : String) (hp : ∀ v, p (k, v) = true) :
    ((e.filter p).map Prod.fst).count k = (e.map Prod.fst).count k := by
  induction e with
  | nil => simp
  | cons q rest ih =>
    obtain ⟨k1, v1⟩ := q
    by_cases hk : k1 = k
    · subst hk
      simp [List.filter_cons, hp v1, List.count_cons, ih]
    · by_cases hpv : p (k1, v1) = true
      · simp [List.filter_cons, hpv, List.count_cons, hk, ih]
      · simp [List.filter_cons, hpv, List.count_cons, hk, ih]

theorem hasDupKey_filter (keys : List String) (p : String × JValue → Bool)
    (e : List (String × JValue)) :
    (∀ k ∈ keys, ∀ v, p (k, v) = true) →
      hasDupKey keys (e.filter p) = hasDupKey keys e := by
  induction keys with
  | nil => intro _; rfl
  | cons k ks ih =>
    intro hp
    have ih2 := ih (fun k2 hk2 => hp k2 (by simp [hk2]))
    simp only [hasDupKey, List.any_cons] at ih2 ⊢
    rw [count_fst_filter p e k (hp k (by simp)), ih2]

theorem roundMetadata {m : OpenCliMetadata} (h : MetaOk m) :
    decodeMetadata (encodeMetadata m) = .ok m := by
  obtain ⟨name, value⟩ := m
  have hv : value ≠ some JValue.null := h
  simp only [encodeMetadata, decodeMetadata]
  rw [dupFree_metadataE]
  simp [findField_append, findField_reqE_self,
    findField_reqE_ne, findField_optE_self, findField_optE_ne, reqDecode,
    getString, ok_bind, some_or, none_or, roundOptValue hv]

theorem roundArity {a : OpenCliArity} (h : ArityOk a) :
    decodeArity (encodeArity a) = .ok a := by
  obtain ⟨mn, mx⟩ := a
  obtain ⟨h1, h2⟩ := h
  simp only [encodeArity, decodeArity]
  rw [dupFree_arityE]
  simp [findField_append, findField_optE_self,
    findField_optE_ne, ok_bind, some_or, none_or, roundOptI32 h1, roundOptI32 h2]

theorem roundExitCode {x : OpenCliExitCode} (h : ExitCodeOk x) :
    decodeExitCode (encodeExitCode x) = .ok x := by
  obtain ⟨code, description⟩ := x
  obtain ⟨h1, h2⟩ := h
  simp only [encodeExitCode, decodeExitCode]
  rw [dupFree_exitCodeE]
  simp [findField_append, findField_reqE_self,
    findField_reqE_ne, findField_optE_self, findField_optE_ne, reqDecode,
    getI32, h1, h2, ok_bind, some_or, none_or, roundOptString]

theorem roundContact (c : OpenCliContact) :
    decodeContact (encodeContact c) = .ok c := by
  obtain ⟨name, url, email⟩ := c
  simp only [encodeContact, decodeContact]
  rw [dupFree_contactE]
  simp [findField_append, findField_optE_self,
    findField_optE_ne, ok_bind, some_or, none_or, roundOptString]

theorem roundLicense (l : OpenCliLicense) :
    decodeLicense (encodeLicense l) = .ok l := by
  obtain ⟨name, identifier⟩ := l
  simp only [encodeLicense, decodeLicense]
  rw [dupFree_licenseE]
  simp [findField_append, findField_optE_self,
    findField_optE_ne, ok_bind, some_or, none_or, roundOptString]

theorem roundConventions (c : OpenCliConventions) :
    decodeConventions (encodeConventions c) = .ok c := by
  obtain ⟨go, sep⟩ := c
  simp only [encodeConventions, decodeConventions]
  rw [dupFree_conventionsE]
  simp [findField_append, findField_optE_self,
    findField_optE_ne, ok_bind, some_or, none_or, roundOptString, roundOptBool]

theorem encodeContact_ne_null (c : OpenCliContact) : encodeContact c ≠ JValue.null := by
  simp [encodeContact]

theorem encodeLicense_ne_null (l : OpenCliLicense) : encodeLicense l ≠ JValue.null := by
  simp [encodeLicense]

theorem encodeConventions_ne_null (c : OpenCliConventions) :
    encodeConventions c ≠ JValue.null := by
  simp [encodeConventions]

theorem encodeArity_ne_null (a : OpenCliArity) : encodeArity a ≠ JValue.null := by
  simp [encodeArity]

theorem encodeMetadata_ne_null (m : OpenCliMetadata) :
    encodeMetadata m ≠ JValue.null := by
  simp [encodeMetadata]

theorem roundInfo (i : OpenCliInfo) : decodeInfo (encodeInfo i) = .ok i := by
  obtain ⟨title, summary, description, contact, license, version⟩ := i
  simp only [encodeInfo, decodeInfo]
  rw [dupFree_infoE]
  simp [findField_append, findField_reqE_self,
    findField_reqE_ne, findField_optE_self, findField_optE_ne, reqDecode,
    getString, ok_bind, some_or, none_or, roundOptString,
    roundOptStruct encodeContact decodeContact encodeContact_ne_null
      (fun x _ => roundContact x),
    roundOptStruct encodeLicense decodeLicense encodeLicense_ne_null
      (fun x _ => roundLicense x)]

theorem roundArgument {a : OpenCliArgument} (h : ArgumentOk a) :
    decodeArgument (encodeArgument a) = .ok a := by
  obtain ⟨name, required, arity, accepted, group, description, hidden, metadata⟩ := a
  obtain ⟨h1, h2⟩ := h
  simp only [encodeArgument, decodeArgument]
  rw [dupFree_argumentE]
  simp [findField_append, findField_reqE_self,
    findField_reqE_ne, findField_optE_self, findField_optE_ne, findField_seqE_self,
    findField_seqE_ne, reqDecode, getString, ok_bind, some_or, none_or,
    roundOptString, roundOptBool,
    roundOptStruct encodeArity decodeArity encodeArity_ne_null
      (fun x hx => roundArity (h1 x hx)),
    seqRound JValue.str getString (fun s _ => rfl),
    seqRound encodeMetadata decodeMetadata (fun m hm => roundMetadata (h2 m hm))]

theorem roundOption {o : OpenCliOption} (h : OptionOk o) :
    decodeOption (encodeOption o) = .ok o := by
  obtain ⟨name, required, aliases, arguments, group, description, recursive,
    hidden, metadata⟩ := o
  obtain ⟨h1, h2⟩ := h
  simp only [encodeOption, decodeOption]
  rw [dupFree_optionE]
  simp [findField_append, findField_reqE_self,
    findField_reqE_ne, findField_optE_self, findField_optE_ne, findField_seqE_self,
    findField_seqE_ne, reqDecode, getString, ok_bind, some_or, none_or,
    roundOptString, roundOptBool,
    seqRound JValue.str getString (fun s _ => rfl),
    seqRound encodeArgument decodeArgument (fun x hx => roundArgument (h1 x hx)),
    seqRound encodeMetadata decodeMetadata (fun m hm => roundMetadata (h2 m hm))]

theorem seqLook_eq_none {items : List JValue} (h : seqLook items = none) :
    items = [] := by
  cases items <;> simp [seqLook] at h ⊢

theorem seqLook_eq_some {items : List JValue} {v : JValue}
    (h : seqLook items = some v) : v = .arr items ∧ items ≠ [] := by
  cases items <;> simp [seqLook] at h ⊢
  simp [h.symm]

theorem roundCommand {c : OpenCliCommand} (h : CmdOk c) :
    decodeCommand (encodeCommand c) = .ok c := by
  induction h with
  | intro name aliases options arguments commands exitCodes description hidden
      examples interactive metadata hOpt hArg hCmd hExit hMeta ih =>
    have hcmds : mapMemExcept (commands.map encodeCommand)
        (fun x _ => decodeCommand x) = .ok commands :=
      mapMemExcept_map_round encodeCommand decodeCommand ih
    unfold encodeCommand
    rw [mapMem_eq_map]
    have hlook : findField
        (reqE "name" (.str name) ++ seqE "aliases" (aliases.map .str) ++
          seqE "options" (options.map encodeOption) ++
          seqE "arguments" (arguments.map encodeArgument) ++
          seqE "commands" (commands.map encodeCommand) ++
          seqE "exitCodes" (exitCodes.map encodeExitCode) ++
          optE "description" (description.map .str) ++
          optE "hidden" (hidden.map .bool) ++
          seqE "examples" (examples.map .str) ++
          optE "interactive" (interactive.map .bool) ++
          seqE "metadata" (metadata.map encodeMetadata)) "commands"
        = seqLook (commands.map encodeCommand) := by
      simp [findField_append, findField_reqE_ne, findField_optE_ne,
        findField_seqE_ne, findField_seqE_self, some_or, none_or]
    unfold decodeCommand
    rw [dupFree_commandE]
    simp [findField_append, findField_reqE_self, findField_reqE_ne,
      findField_optE_self, findField_optE_ne, findField_seqE_self,
      findField_seqE_ne, reqDecode, getString, ok_bind, some_or, none_or,
      roundOptString, roundOptBool,
      seqRound JValue.str getString (fun s _ => rfl),
      seqRound encodeOption decodeOption (fun x hx => roundOption (hOpt x hx)),
      seqRound encodeArgument decodeArgument (fun x hx => roundArgument (hArg x hx)),
      seqRound encodeExitCode decodeExitCode (fun x hx => roundExitCode (hExit x hx)),
      seqRound encodeMetadata decodeMetadata (fun m hm => roundMetadata (hMeta m hm))]
    split
    · rename_i heq
      rw [hlook] at heq
      have := seqLook_eq_none heq
      simp at this
      simp [this, ok_bind]
    · rename_i items heq
      rw [hlook] at heq
      obtain ⟨hv, hne⟩ := seqLook_eq_some heq
      cases hv
      simp [hcmds, ok_bind]
    · rename_i v hnotarr heq
      rw [hlook] at heq
      obtain ⟨hv, hne⟩ := seqLook_eq_some heq
      exact absurd hv (hnotarr _)

theorem findField_filter (p : String × JValue → Bool) (e : List (String × JValue))
    (k : String) (hp : ∀ v, p (k, v) = true) :
    findField (e.filter p) k = findField e k := by
  induction e with
  | nil => simp [findField]
  | cons q rest ih =>
    obtain ⟨k1, v1⟩ := q
    by_cases hk : k1 = k
    · subst hk
      simp [List.filter_cons, hp v1, findField, ih]
    · by_cases hpv : p (k1, v1) = true
      · simp [List.filter_cons, hpv, findField, hk, ih]
      · simp [List.filter_cons, hpv, findField, hk, ih]

theorem decodeCommand_filter_known (ec : List (String × JValue)) :
    decodeCommand (.obj (ec.filter (fun p => commandKeys.contains p.1))) =
      decodeCommand (.obj ec) := by
  have hkk : ∀ k, commandKeys.contains k = true →
      findField (List.filter (fun p => commandKeys.contains p.1) ec) k =
        findField ec k :=
    fun k hkc => findField_filter _ ec k (fun _ => hkc)
  have hc := hkk "commands" rfl
  have hdup : hasDupKey commandKeys
      (ec.filter (fun p => commandKeys.contains p.1)) =
        hasDupKey commandKeys ec :=
    hasDupKey_filter commandKeys _ ec (fun k hk v => by simpa using hk)
  unfold decodeCommand
  rw [hdup]
  cases hd : hasDupKey commandKeys ec with
  | true => rfl
  | false =>
    have hne : ¬ (false = true) := by decide
    rw [if_neg hne, if_neg hne]
    rw [hkk "name" rfl, hkk "aliases" rfl, hkk "options" rfl,
      hkk "arguments" rfl, hkk "exitCodes" rfl, hkk "description" rfl,
      hkk "hidden" rfl, hkk "examples" rfl, hkk "interactive" rfl,
      hkk "metadata" rfl]
    split <;> rename_i heq <;> rw [hc] at heq <;> split <;> rename_i heq2 <;>
      rw [heq] at heq2
    all_goals try cases heq2
    all_goals try rfl
    all_goals
      rename_i hno
      exact absurd rfl (hno _)

/-! ## Sample values used by witnesses -/

/-- Minimal document value used as the format-A witness result. -/
def sampleDocA : OpenCliDocument :=
  ⟨"1.0", ⟨"a", none, none, none, none, "1"⟩, none, [], [], [], [], [], none, []⟩

/-- Minimal document value used as the format-B witness result. -/
def sampleDocB : OpenCliDocument :=
  ⟨"2.0", ⟨"b", none, none, none, none, "2"⟩, none, [], [], [], [], [], none, []⟩

/-- Text decoder that always fails (stands in for an external parser in
witnesses). -/
def failDec : String → Except String OpenCliDocument := fun _ => .error "bad input"

/-- Document whose metadata entry carries a present-null value. -/
def docNullMeta : OpenCliDocument :=
  ⟨"1.0", ⟨"t", none, none, none, none, "1"⟩, none, [], [], [], [], [], none,
    [⟨"m", some JValue.null⟩]⟩

/-- Document used by the round-trip witness. -/
def docRound : OpenCliDocument :=
  ⟨"1.0", ⟨"t", some "sum", none, some ⟨some "c", none, some "e"⟩, none, "1"⟩,
    some ⟨some true, some " "⟩, [], [],
    [.mk "run" ["r"] [] [] [] [] none none [] none []],
    [⟨0, some "ok"⟩], ["ex"], some true, [⟨"m", some (.bool true)⟩]⟩

/-! ## Claims -/

/-- C1: for every input text that decodes successfully under both format A
(YAML) and format B (JSON) but to different field values, `from_str`
returns the format-A decoding result, and no format-B attempt influences
the result (the outcome is unchanged under any replacement of the format-B
decoder). -/
theorem fromStr_format_a_precedence
    (yamlFromStr jsonFromStr jsonAlt : String → Except String OpenCliDocument)
    (content : String) (a b : OpenCliDocument)
    (ha : yamlFromStr content = .ok a) (hb : jsonFromStr content = .ok b)
    (hne : b ≠ a) :
    fromStr yamlFromStr jsonFromStr content = .ok a ∧
    fromStr yamlFromStr jsonFromStr content = fromStr yamlFromStr jsonAlt content := by
  constructor <;> simp [fromStr, ha]

/-- Witness for C1 at concrete decoders returning two different documents. -/
theorem fromStr_format_a_precedence_witness :
    fromStr (fun _ => .ok sampleDocA) (fun _ => .ok sampleDocB) "doc" = .ok sampleDocA ∧
    fromStr (fun _ => .ok sampleDocA) (fun _ => .ok sampleDocB) "doc" =
      fromStr (fun _ => .ok sampleDocA) failDec "doc" :=
  fromStr_format_a_precedence _ _ _ "doc" sampleDocA sampleDocB rfl rfl
    (by simp [sampleDocA, sampleDocB])

/-- C2: for every input text that fails to decode under format A (YAML)
but decodes successfully under format B (JSON), `from_str` succeeds and
returns exactly the format-B value. -/
theorem fromStr_format_b_fallback
    (yamlFromStr jsonFromStr : String → Except String OpenCliDocument)
    (content : String) (ea : String) (b : OpenCliDocument)
    (ha : yamlFromStr content = .error ea) (hb : jsonFromStr content = .ok b) :
    fromStr yamlFromStr jsonFromStr content = .ok b := by
  simp [fromStr, ha, hb]

/-- Witness for C2 at a failing format-A decoder and a succeeding format-B
decoder. -/
theorem fromStr_format_b_fallback_witness :
    fromStr failDec (fun _ => .ok sampleDocB) "doc" = .ok sampleDocB :=
  fromStr_format_b_fallback _ _ "doc" "bad input" sampleDocB rfl rfl

/-- C3: for every input text that fails to decode under both formats,
`from_str` returns an error classified `Parse` carrying format B's
diagnostic, and format A's failure reason is never surfaced (the result is
the same whatever failure format A produced). -/
theorem fromStr_error_surfaces_format_b
    (yamlFromStr jsonFromStr : String → Except String OpenCliDocument)
    (content : String) (ea eb : String)
    (ha : yamlFromStr content = .error ea) (hb : jsonFromStr content = .error eb) :
    fromStr yamlFromStr jsonFromStr content = .error (.Parse eb) ∧
    (∀ yamlAlt ea2, yamlAlt content = .error ea2 →
      fromStr yamlAlt jsonFromStr content = .error (.Parse eb)) := by
  constructor
  · simp [fromStr, ha, hb]
  · intro yamlAlt ea2 hy
    simp [fromStr, hy, hb]

/-- Witness for C3 at two concrete failing decoders with different
diagnostics. -/
theorem fromStr_error_surfaces_format_b_witness :
    fromStr (fun _ => .error "yaml diag") failDec "doc" = .error (.Parse "bad input") ∧
    (∀ yamlAlt ea2, yamlAlt "doc" = .error ea2 →
      fromStr yamlAlt failDec "doc" = .error (.Parse "bad input")) :=
  fromStr_error_surfaces_format_b _ _ "doc" "yaml diag" "bad input" rfl rfl

/-- C4: for every byte buffer that is not well-formed UTF-8, `from_slice`
fails with the `Other` class error (not `Parse`), independently of either
parser (no parse attempt); for every well-formed buffer it returns exactly
what `from_str` returns on the decoded text. -/
theorem fromSlice_utf8_validation
    (yamlFromStr jsonFromStr : String → Except String OpenCliDocument)
    (bytes : List Nat) :
    (utf8Decode bytes = none →
      ∀ ya jb, fromSlice ya jb bytes = .error (.Other "utf8")) ∧
    (∀ cps, utf8Decode bytes = some cps →
      fromSlice yamlFromStr jsonFromStr bytes =
        fromStr yamlFromStr jsonFromStr (strOfCodepoints cps)) := by
  constructor
  · intro h ya jb
    simp [fromSlice, h]
  · intro cps h
    simp [fromSlice, h]

/-- Witness for C4 at the invalid buffer `[0xFF]` and the valid buffer
`"hi"`. -/
theorem fromSlice_utf8_validation_witness :
    fromSlice failDec failDec [255] = .error (.Other "utf8") ∧
    fromSlice failDec failDec [104, 105] =
      fromStr failDec failDec (strOfCodepoints [104, 105]) :=
  ⟨(fromSlice_utf8_validation failDec failDec [255]).1 rfl failDec failDec,
   (fromSlice_utf8_validation failDec failDec [104, 105]).2 [104, 105] rfl⟩

/-- C5: an input object for the document that is missing the `opencli`
field, or whose `info` object is missing `title`, fails to decode (the
derived deserializer behind both formats supplies no default for required
fields). -/
theorem document_missing_required_fields (e : List (String × JValue)) :
    (findField e "opencli" = none →
      ∃ msg, decodeDocument (.obj e) = .error msg) ∧
    (∀ ie, findField e "info" = some (.obj ie) → findField ie "title" = none →
      ∃ msg, decodeDocument (.obj e) = .error msg) := by
  constructor
  · intro h
    cases hd : hasDupKey docKeys e with
    | true => exact ⟨"duplicate field", by simp [decodeDocument, hd]⟩
    | false =>
      exact ⟨"missing field",
        by simp [decodeDocument, hd, reqDecode, h, error_bind]⟩
  · intro ie hinfo htitle
    cases hd : hasDupKey docKeys e with
    | true => exact ⟨"duplicate field", by simp [decodeDocument, hd]⟩
    | false =>
      have hne : ¬ hasDupKey docKeys e = true := by simp [hd]
      cases hoc : reqDecode (findField e "opencli") getString with
      | error msg => exact ⟨msg, by simp [decodeDocument, hd, hoc, error_bind]⟩
      | ok s =>
        cases hd2 : hasDupKey infoKeys ie with
        | true =>
          refine ⟨"duplicate field", ?_⟩
          simp only [decodeDocument]
          rw [if_neg hne, hoc]
          simp only [ok_bind]
          rw [hinfo]
          simp [reqDecode, decodeInfo, hd2, error_bind]
        | false =>
          refine ⟨"missing field", ?_⟩
          simp only [decodeDocument]
          rw [if_neg hne, hoc]
          simp only [ok_bind]
          rw [hinfo]
          simp [reqDecode, decodeInfo, hd2, htitle, error_bind]

/-- Witness for C5: the empty object is missing `opencli`, and a document
whose `info` object is empty is missing `info.title`; both fail. -/
theorem document_missing_required_fields_witness :
    (∃ msg, decodeDocument (.obj []) = .error msg) ∧
    (∃ msg, decodeDocument
      (.obj [("opencli", .str "1"), ("info", .obj [])]) = .error msg) :=
  ⟨(document_missing_required_fields []).1 rfl,
   (document_missing_required_fields
      [("opencli", .str "1"), ("info", .obj [])]).2 [] rfl rfl⟩

/-- C6 counterexample: a `Command` whose `options` field is present as null
fails to decode with a type error, while the claim asserts it decodes to
the same empty sequence as an absent field (shown alongside for
contrast). -/
theorem command_null_options_cx :
    decodeCommand (.obj [("name", .str "build"), ("options", JValue.null)]) =
      .error "invalid type: expected a sequence" ∧
    decodeCommand (.obj [("name", .str "build")]) =
      .ok (.mk "build" [] [] [] [] [] none none [] none []) := by
  constructor <;>
    simp [decodeCommand, findField, reqDecode, getString, seqDecode, optDecode,
      ok_bind, error_bind]
  all_goals rfl

/-- C6 amended: a `Command` sequence field that is missing or present as an
empty sequence decodes to the same in-memory empty sequence, a present-null
sequence field fails to decode with a type error, and serializing an empty
sequence omits the field entirely. -/
theorem command_options_defaulting (s : String) :
    decodeCommand (.obj [("name", .str s)]) =
      .ok (.mk s [] [] [] [] [] none none [] none []) ∧
    decodeCommand (.obj [("name", .str s), ("options", .arr [])]) =
      .ok (.mk s [] [] [] [] [] none none [] none []) ∧
    decodeCommand (.obj [("name", .str s), ("options", JValue.null)]) =
      .error "invalid type: expected a sequence" ∧
    encodeCommand (.mk s [] [] [] [] [] none none [] none []) =
      .obj [("name", .str s)] := by
  refine ⟨?_, ?_, ?_, ?_⟩ <;>
    simp [decodeCommand, encodeCommand, findField, reqDecode, getString,
      seqDecode, optDecode, mapMExcept, mapMem, reqE, optE, seqE, ok_bind,
      error_bind]
  all_goals rfl

/-- C7 counterexample: the document `docNullMeta`, whose metadata entry has
the present-null value — an in-range value of the declared metadata value
domain — does not survive a serialize-then-load round trip: the value comes
back as the absent marker. -/
theorem document_roundtrip_null_metadata_cx :
    decodeDocument (encodeDocument docNullMeta) =
      .ok ⟨"1.0", ⟨"t", none, none, none, none, "1"⟩, none, [], [], [], [], [],
        none, [⟨"m", none⟩]⟩ ∧
    decodeDocument (encodeDocument docNullMeta) ≠ .ok docNullMeta := by
  have h1 : decodeDocument (encodeDocument docNullMeta) =
      .ok ⟨"1.0", ⟨"t", none, none, none, none, "1"⟩, none, [], [], [], [], [],
        none, [⟨"m", none⟩]⟩ := rfl
  refine ⟨h1, ?_⟩
  rw [h1]
  simp [docNullMeta]

/-- C7 amended: for every document built from in-range field values none of
whose metadata entries carries a present-null value, serializing and
loading back yields exactly the original value (so the empty-sequence
proviso never even has to weaken equality, and a second round trip is
idempotent). -/
theorem document_roundtrip {d : OpenCliDocument} (h : DocOk d) :
    decodeDocument (encodeDocument d) = .ok d := by
  obtain ⟨opencli, info, conventions, arguments, options, commands, exitCodes,
    examples, interactive, metadata⟩ := d
  obtain ⟨hArg, hOpt, hCmd, hExit, hMeta⟩ := h
  simp only [encodeDocument, decodeDocument]
  rw [dupFree_docE]
  simp [findField_append, findField_reqE_self,
    findField_reqE_ne, findField_optE_self, findField_optE_ne,
    findField_seqE_self, findField_seqE_ne, reqDecode, getString, ok_bind,
    some_or, none_or, roundOptString, roundOptBool, roundInfo,
    roundOptStruct encodeConventions decodeConventions encodeConventions_ne_null
      (fun x _ => roundConventions x),
    seqRound encodeArgument decodeArgument (fun x hx => roundArgument (hArg x hx)),
    seqRound encodeOption decodeOption (fun x hx => roundOption (hOpt x hx)),
    seqRound encodeCommand decodeCommand (fun x hx => roundCommand (hCmd x hx)),
    seqRound encodeExitCode decodeExitCode (fun x hx => roundExitCode (hExit x hx)),
    seqRound JValue.str getString (fun v _ => rfl),
    seqRound encodeMetadata decodeMetadata (fun m hm => roundMetadata (hMeta m hm))]

/-- Witness for C7 at a concrete in-range document with a command, exit
code and non-null metadata. -/
theorem document_roundtrip_witness :
    DocOk docRound ∧ decodeDocument (encodeDocument docRound) = .ok docRound := by
  have hok : DocOk docRound := by
    refine ⟨by simp [docRound], by simp [docRound], ?_, ?_, ?_⟩
    · intro c hc
      simp [docRound] at hc
      subst hc
      exact CmdOk.intro _ _ _ _ _ _ _ _ _ _ _ (by simp) (by simp) (by simp)
        (by simp) (by simp)
    · intro x hx
      simp [docRound] at hx
      subst hx
      exact ⟨by norm_num, by norm_num⟩
    · intro m hm
      simp [docRound] at hm
      subst hm
      simp [MetaOk]
  exact ⟨hok, document_roundtrip hok⟩

/-- C8: an arity object with both bounds present and minimum greater than
maximum decodes successfully and preserves both values unchanged — no
cross-field check, no swap, no clamp, no rejection. -/
theorem arity_min_exceeds_max_preserved (mn mx : Int) (hgt : mx < mn)
    (hmn : IsI32 mn) (hmx : IsI32 mx) :
    decodeArity (.obj [("minimum", .num mn), ("maximum", .num mx)]) =
      .ok ⟨some mn, some mx⟩ := by
  obtain ⟨h1, h2⟩ := hmn
  obtain ⟨h3, h4⟩ := hmx
  simp [decodeArity, findField, optDecode, getI32, ok_bind, map_ok, h1, h2, h3, h4]
  rfl

/-- Witness for C8 at minimum 5, maximum 2. -/
theorem arity_min_exceeds_max_preserved_witness :
    decodeArity (.obj [("minimum", .num 5), ("maximum", .num 2)]) =
      .ok ⟨some 5, some 2⟩ :=
  arity_min_exceeds_max_preserved 5 2 (by norm_num)
    ⟨by norm_num, by norm_num⟩ ⟨by norm_num, by norm_num⟩

/-- C9: unknown keys are silently ignored — decoding a document or command
object is unchanged by dropping every key outside the documented field set
(in particular they are not preserved and cause no error), and a concrete
document with an extra unknown key decodes successfully ignoring it. -/
theorem unknown_fields_ignored (e ec : List (String × JValue)) :
    decodeDocument (.obj (e.filter (fun p => docKeys.contains p.1))) =
      decodeDocument (.obj e) ∧
    decodeCommand (.obj (ec.filter (fun p => commandKeys.contains p.1))) =
      decodeCommand (.obj ec) ∧
    decodeDocument (.obj [("opencli", .str "0.1"),
      ("info", .obj [("title", .str "demo"), ("version", .str "1.0")]),
      ("xExtra", .bool true)]) =
      .ok ⟨"0.1", ⟨"demo", none, none, none, none, "1.0"⟩, none, [], [], [], [],
        [], none, []⟩ := by
  refine ⟨?_, decodeCommand_filter_known ec, by rfl⟩
  have hkk : ∀ k, docKeys.contains k = true →
      findField (List.filter (fun p => docKeys.contains p.1) e) k =
        findField e k :=
    fun k hkc => findField_filter _ e k (fun _ => hkc)
  have hdup : hasDupKey docKeys (e.filter (fun p => docKeys.contains p.1)) =
      hasDupKey docKeys e :=
    hasDupKey_filter docKeys _ e (fun k hk v => by simpa using hk)
  simp only [decodeDocument]
  rw [hdup]
  cases hd : hasDupKey docKeys e with
  | true => rfl
  | false =>
    have hne : ¬ (false = true) := by decide
    rw [if_neg hne, if_neg hne]
    rw [hkk "opencli" rfl, hkk "info" rfl, hkk "conventions" rfl,
      hkk "arguments" rfl, hkk "options" rfl, hkk "commands" rfl,
      hkk "exitCodes" rfl, hkk "examples" rfl, hkk "interactive" rfl,
      hkk "metadata" rfl]

/-- C10: a metadata entry whose `value` field is present as null decodes to
the same state as one whose `value` field is absent — the absent marker —
so a present-null metadata value is not representable as a distinct loaded
state. The two entry lists are required to be serde-acceptable metadata
objects (no duplicated known key, as the derived deserializer rejects
those) and to agree on the `name` field. -/
theorem metadata_null_value_collapses (e e2 : List (String × JValue))
    (hd : hasDupKey metadataKeys e = false)
    (hd2 : hasDupKey metadataKeys e2 = false)
    (hv : findField e "value" = some JValue.null)
    (hv2 : findField e2 "value" = none)
    (hn : findField e "name" = findField e2 "name") :
    decodeMetadata (.obj e) = decodeMetadata (.obj e2) ∧
    (∀ s, decodeMetadata (.obj [("name", .str s), ("value", JValue.null)]) =
      .ok ⟨s, none⟩) := by
  constructor
  · simp [decodeMetadata, hd, hd2, hv, hv2, hn, optDecode]
  · intro s
    simp [decodeMetadata, findField, reqDecode, getString, optDecode, ok_bind]
    rfl

/-- Witness for C10 at a concrete metadata object. -/
theorem metadata_null_value_collapses_witness :
    decodeMetadata (.obj [("name", .str "m"), ("value", JValue.null)]) =
      decodeMetadata (.obj [("name", .str "m")]) ∧
    (∀ s, decodeMetadata (.obj [("name", .str s), ("value", JValue.null)]) =
      .ok ⟨s, none⟩) :=
  metadata_null_value_collapses [("name", .str "m"), ("value", JValue.null)]
    [("name", .str "m")] rfl rfl rfl rfl rfl
